import Mathlib

/-!
# A verification development for the `cargo-subcommand` resolution core

This file is a shallow embedding, in Lean 4, of the package/workspace/artifact
resolution core of the `cargo-subcommand` Rust crate, together with theorems
about its behaviour.

Modelling conventions:
* File-system paths (`std::path::PathBuf`) become `RPath`: an absoluteness flag
  plus a list of (normal) components.  `Path::join` / `Path::push` semantics —
  an absolute right operand replaces the left one — are reproduced.
* Every interaction with the outside world (file existence, directory listing,
  TOML parsing outcomes, `dunce::canonicalize`, glob expansion, the process
  environment, the current directory, the host triple) is gathered in a record
  `World` of explicit functions: the code under verification is a pure function
  of this record.  `canonicalize` returning `none` models an `io::Error`.
* `Result<T, E>` becomes `Except`; a Rust panic (assertion failure or `unwrap`
  of an error) is modelled by an outer `Option` being `none`.
* `HashMap<String, Artifact>` is modelled by an association list in insertion
  order; `HashMap::into_values()` — whose iteration order the Rust standard
  library does not specify and which is randomly seeded per map — is modelled
  by an explicit reordering parameter constrained to produce a permutation of
  the stored values.
* Rust strings are Lean `String`s; the `VarError::NotUnicode` branch of the
  source is unreachable in the model, so environment-variable errors reduce to
  `not present` and canonicalization I/O failures.
-/

deriving instance DecidableEq for Except

namespace CargoSubcommand

/-! ## Paths -/

/-- Model of `std::path::PathBuf` on a Unix-like platform: an absoluteness flag
and the list of normal components. -/
structure RPath where
  abs : Bool
  comps : List String
deriving DecidableEq, Repr

/-- `Path::join` / `PathBuf::push`: an absolute right operand replaces the
accumulated path. -/
def RPath.join (a b : RPath) : RPath :=
  if b.abs then b else ⟨a.abs, a.comps ++ b.comps⟩

/-- Join a single (slash-free, non-empty) component. -/
def RPath.joinC (a : RPath) (c : String) : RPath :=
  ⟨a.abs, a.comps ++ [c]⟩

/-- Split a character list at `/` separators. -/
def splitSlashes : List Char → List Char → List String
  | [], acc => [String.mk acc.reverse]
  | '/' :: rest, acc => String.mk acc.reverse :: splitSlashes rest []
  | c :: rest, acc => splitSlashes rest (c :: acc)

/-- `PathBuf::from`/`Path::new` on a string, Unix semantics: a leading `/`
makes the path absolute, empty components collapse. -/
def RPath.ofString (s : String) : RPath :=
  ⟨decide (s.toList.head? = some '/'), (splitSlashes s.toList []).filter (fun c => c ≠ "")⟩

/-- Render a path back to a string (`Path::into_os_string().into_string()`). -/
def RPath.render (p : RPath) : String :=
  (if p.abs then "/" else "") ++ String.intercalate "/" p.comps

/-- `Path::parent().unwrap()` (total in the model: the parent of a root is the
root itself, a case never exercised by the claims). -/
def RPath.parent (p : RPath) : RPath :=
  ⟨p.abs, p.comps.dropLast⟩

/-- `Path::file_name()`: the last component, if any. -/
def RPath.fileName (p : RPath) : Option String :=
  p.comps.getLast?

/-- `Path::is_relative()`. -/
def RPath.is_relative (p : RPath) : Bool := !p.abs

/-- `Path::ancestors()`, innermost first, on component lists: every prefix of
the component list, longest first. -/
def RPath.ancestorsComps (cs : List String) : List (List String) :=
  cs.inits.reverse

/-- `Path::ancestors()`: the path, its parent, …, up to the root. -/
def RPath.ancestors (p : RPath) : List RPath :=
  (RPath.ancestorsComps p.comps).map (fun cs => ⟨p.abs, cs⟩)

/-- `Path::strip_prefix(root).unwrap()` for the use in `Subcommand::new`,
where `root` is known to be a prefix: drop the leading components and the
absoluteness. -/
def RPath.relativeTo (root p : RPath) : RPath :=
  ⟨false, p.comps.drop root.comps.length⟩

/-! ## String helpers mirroring the Rust standard library -/

/-- Rust `str::contains(pattern)`: substring containment. -/
def strContains (hay pat : String) : Bool :=
  decide (pat.toList <:+: hay.toList)

/-- Rust `str::replace('-', "_")`. -/
def undash (s : String) : String :=
  String.mk (s.toList.map (fun c => if c = '-' then '_' else c))

/-- Rust `Path::file_stem()` on a file name: the portion before the last `.`,
or the whole name when there is no dot or only a leading one. -/
def fileStem (s : String) : String :=
  let cs := s.toList
  match cs.reverse.findIdx? (fun c => c = '.') with
  | none => s
  | some i =>
    let stemLen := cs.length - i - 1
    if stemLen = 0 then s else String.mk (cs.take stemLen)

/-- Rust `path.extension() == Some(OsStr::new("rs"))` on a file name. -/
def hasRsExtension (s : String) : Bool :=
  let cs := s.toList
  match cs.reverse.findIdx? (fun c => c = '.') with
  | none => false
  | some i =>
    let stemLen := cs.length - i - 1
    decide (stemLen ≠ 0) && decide (String.mk (cs.drop (cs.length - i)) = "rs")

/-! ## `src/profile.rs` -/

/-- `Profile` (src/profile.rs). -/
inductive Profile where
  | dev
  | release
  | custom (name : String)
deriving DecidableEq, Repr

/-- `impl AsRef<Path> for Profile` (src/profile.rs lines 33–41): the directory
name used under the target directory. -/
def Profile.as_ref : Profile → String
  | .dev => "debug"
  | .release => "release"
  | .custom name => name

/-! ## `src/manifest.rs` data model and `src/artifact.rs` -/

/-- `CrateType` (src/manifest.rs). -/
inductive CrateType where
  | bin
  | lib
  | staticlib
  | cdylib
deriving DecidableEq, Repr

/-- `ArtifactType` (src/artifact.rs). -/
inductive ArtifactType where
  | lib
  | bin
  | example
deriving DecidableEq, Repr

/-- `Artifact` (src/artifact.rs). -/
structure Artifact where
  name : String
  path : RPath
  type : ArtifactType
deriving DecidableEq, Repr

/-- `Artifact::build_dir` (src/artifact.rs lines 22–27), as the path it
denotes: `Path::new("")` has no components. -/
def Artifact.build_dir (a : Artifact) : RPath :=
  RPath.ofString (match a.type with
    | .lib | .bin => ""
    | .example => "examples")

/-- `Artifact::file_name` (src/artifact.rs lines 31–53).  `none` models the
`panic!` on an incompatible (artifact type, crate type) pair. -/
def Artifact.file_name (a : Artifact) (ty : CrateType) (target : String) : Option String :=
  match a.type, ty with
  | .bin, .bin | .example, .bin =>
    some (if strContains target "windows" then a.name ++ ".exe"
      else if strContains target "wasm" then a.name ++ ".wasm"
      else a.name)
  | .lib, .lib | .example, .lib => some ("lib" ++ undash a.name ++ ".rlib")
  | .lib, .staticlib | .example, .staticlib => some ("lib" ++ undash a.name ++ ".a")
  | .lib, .cdylib | .example, .cdylib => some ("lib" ++ undash a.name ++ ".so")
  | _, _ => none

/-! ## `src/config.rs` -/

/-- `EnvOption` (src/config.rs lines 140–149): a `[env]` entry is either a
plain string or a structured value with `force` and `relative` flags. -/
inductive EnvOption where
  | string (value : String)
  | value (value : String) (force : Bool) (relative : Bool)
deriving DecidableEq, Repr

/-- `EnvError` (src/config.rs lines 15–18).  `var_not_present` models
`Var(VarError::NotPresent)`; the `NotUnicode` branch is unreachable in the
model since Lean strings are always unicode. -/
inductive EnvError where
  | io (path : RPath)
  | var_not_present
deriving DecidableEq, Repr

/-- `Build` (src/config.rs lines 132–134). -/
structure Build where
  target_dir : Option String
deriving DecidableEq, Repr

/-- `Config` (src/config.rs lines 41–45); the `BTreeMap` of the `[env]` table
becomes an association list. -/
structure Config where
  build : Option Build
  env : Option (List (String × EnvOption))
deriving DecidableEq, Repr

/-- `LocalizedConfig` (src/config.rs lines 55–59). -/
structure LocalizedConfig where
  config : Config
  workspace : RPath
deriving DecidableEq, Repr

/-- Association-list lookup, mirroring `BTreeMap::get` / `HashMap::get`. -/
def alookup {α : Type} : List (String × α) → String → Option α
  | [], _ => none
  | e :: rest, k => if e.1 = k then some e.2 else alookup rest k

/-- `EnvOption::resolve_value` (src/config.rs lines 155–172).  `canonicalize`
is the ambient model of `dunce::canonicalize`; `none` models an `io::Error`. -/
def EnvOption.resolve_value (o : EnvOption) (config_parent : RPath)
    (canonicalize : RPath → Option RPath) : Except EnvError String :=
  match o with
  | .value v _ true =>
    let joined := config_parent.join (RPath.ofString v)
    match canonicalize joined with
    | some c => .ok c.render
    | none => .error (.io joined)
  | .string v => .ok v
  | .value v _ false => .ok v

/-- The `[env]` table lookup `self.config.env.as_ref().and_then(|env| env.get(key))`. -/
def Config.env_get (c : Config) (key : String) : Option EnvOption :=
  c.env.bind (fun e => alookup e key)

/-- The `if let Some(env_option @ EnvOption::Value { force: true, .. })` test
of `resolve_env`. -/
def isForced : Option EnvOption → Bool
  | some (.value _ true _) => true
  | _ => false

/-- `LocalizedConfig::resolve_env` (src/config.rs lines 107–127).  `procEnv`
models `std::env::var` (`none` = `VarError::NotPresent`). -/
def LocalizedConfig.resolve_env (lc : LocalizedConfig)
    (canonicalize : RPath → Option RPath) (procEnv : String → Option String)
    (key : String) : Except EnvError String :=
  let config_var := lc.config.env_get key
  match config_var with
  | some (.value v true rel) =>
    (EnvOption.value v true rel).resolve_value lc.workspace canonicalize
  | _ =>
    match procEnv key with
    | some v => .ok v
    | none =>
      match config_var with
      | none => .error .var_not_present
      | some o => o.resolve_value lc.workspace canonicalize

/-! ## `src/manifest.rs` structures -/

/-- A named target declaration with an optional explicit source path.  In the
source, `Bin` (src/manifest.rs lines 133–137) and `Example` (lines 140–144)
are two distinct structs with exactly these fields; a single Lean structure
stands for both. -/
structure TargetDecl where
  name : String
  path : Option RPath
deriving DecidableEq, Repr

/-- `Lib` (src/manifest.rs lines 126–130): unlike binaries and examples, the
library declaration's name is optional. -/
structure Lib where
  name : Option String
  path : Option RPath
deriving DecidableEq, Repr

/-- `Workspace` (src/manifest.rs lines 91–96). -/
structure Workspace where
  default_members : List String
  members : List String
deriving DecidableEq, Repr

/-- `Package` (src/manifest.rs lines 103–115); `autobins`/`autoexamples`
default to `true` in serde. -/
structure Package where
  name : String
  autobins : Bool
  autoexamples : Bool
deriving DecidableEq, Repr

/-- `Manifest` (src/manifest.rs lines 11–19). -/
structure Manifest where
  workspace : Option Workspace
  package : Option Package
  lib : Option Lib
  bins : List TargetDecl
  examples : List TargetDecl
deriving DecidableEq, Repr

/-! ## `src/error.rs` -/

/-- `Error` (src/error.rs lines 8–29).  Read failures and TOML parse failures
both surface as `io`/`toml` with the offending path; the model does not
distinguish the underlying `io::Error`/`toml::de::Error` payloads. -/
inductive Error where
  | invalidArgs
  | manifestNotAWorkspace
  | manifestNotFound
  | manifestPathNotFound
  | unexpectedWorkspace (path : RPath)
  | noPackageInManifest (path : RPath)
  | packageNotFound (workspace : RPath) (name : String)
  | manifestNotInWorkspace (manifest : RPath) (workspace_manifest : RPath)
  | io (path : RPath)
  | toml (path : RPath)
  | binNotFound (name : String)
  | exampleNotFound (name : String)
  | duplicateBin (name : String)
  | duplicateExample (name : String)
deriving DecidableEq, Repr

/-! ## The world: explicit model of every external effect -/

/-- All the outside state `Subcommand::new` and its helpers consult.  Parse
results are pre-computed: `manifests p = none` means reading or parsing the
manifest at `p` fails (surfaced as `Error.toml`), likewise `configs`.
`canonicalize p = none` models an `io::Error` from `dunce::canonicalize`.
`glob` is the expansion of one glob pattern (given as the pattern's path) into
matched directories, abstracting the `glob` crate.  `dirFiles` lists the names
of the plain files in a directory (used by `list_rust_files`, which filters
out non-files). -/
structure World where
  fileExists : RPath → Bool
  dirExists : RPath → Bool
  dirFiles : RPath → List String
  manifests : RPath → Option Manifest
  configs : RPath → Option Config
  canonicalize : RPath → Option RPath
  glob : RPath → List RPath
  envv : String → Option String
  cwd : RPath
  host : String

/-! ## `src/utils.rs` -/

/-- `utils::list_rust_files` (src/utils.rs lines 7–19). -/
def list_rust_files (w : World) (dir : RPath) : Except Error (List RPath) :=
  if w.dirExists dir then
    .ok (((w.dirFiles dir).filter hasRsExtension).map (fun f => dir.joinC f))
  else
    .ok []

/-- `utils::canonicalize` (src/utils.rs lines 21–26): empty paths are
canonicalized as `.`, errors carry the path. -/
def canonicalize (w : World) (path : RPath) : Except Error RPath :=
  let path := if path = RPath.ofString "" then RPath.ofString "." else path
  match w.canonicalize path with
  | some c => .ok c
  | none => .error (.io path)

/-- `utils::get_target_dir_name` (src/utils.rs lines 125–134); the source
returns `Result` but never an error. -/
def get_target_dir_name (config : Option Config) : String :=
  match config with
  | some c =>
    match c.build with
    | some b =>
      match b.target_dir with
      | some target_dir => target_dir
      | none => "target"
    | none => "target"
  | none => "target"

/-- `utils::find_manifest` (src/utils.rs lines 92–103): walk the ancestors of
the (canonicalized) start directory and parse the first `Cargo.toml` found. -/
def find_manifest (w : World) (path : RPath) : Except Error (RPath × Manifest) :=
  match canonicalize w path with
  | .error e => .error e
  | .ok p =>
    match (p.ancestors.map (fun dir => dir.joinC "Cargo.toml")).find?
        (fun mp => w.fileExists mp) with
    | none => .error .manifestNotFound
    | some mp =>
      match w.manifests mp with
      | some m => .ok (mp, m)
      | none => .error (.toml mp)

/-- Loop body of `utils::find_workspace`. -/
def find_workspace_go (w : World) : List RPath → Except Error (Option (RPath × Manifest))
  | [] => .ok none
  | dir :: rest =>
    let mp := dir.joinC "Cargo.toml"
    if w.fileExists mp then
      match w.manifests mp with
      | none => .error (.toml mp)
      | some m =>
        if m.workspace.isSome then .ok (some (mp, m)) else find_workspace_go w rest
    else find_workspace_go w rest

/-- `utils::find_workspace` (src/utils.rs lines 107–120): the nearest ancestor
`Cargo.toml` containing a `[workspace]`. -/
def find_workspace (w : World) (potential_root : RPath) : Except Error (Option (RPath × Manifest)) :=
  match canonicalize w potential_root with
  | .error e => .error e
  | .ok p => find_workspace_go w p.ancestors

/-! ## `Manifest::members` and package selection -/

/-- The member map of a workspace: manifest directory ↦ (manifest path,
parsed manifest), modelling the `HashMap` of `Manifest::members`. -/
abbrev MemberMap := List (RPath × (RPath × Manifest))

/-- Association-list lookup keyed by paths (`HashMap::get`/`contains_key`). -/
def plookup {α : Type} : List (RPath × α) → RPath → Option α
  | [], _ => none
  | e :: rest, k => if e.1 = k then some e.2 else plookup rest k

/-- `HashMap::insert`: replace the value under an existing key, else append. -/
def pinsert (m : MemberMap) (k : RPath) (v : RPath × Manifest) : MemberMap :=
  if (plookup m k).isSome then
    m.map (fun e => if e.1 = k then (k, v) else e)
  else
    m ++ [(k, v)]

/-- Inner loop of `Manifest::members` (src/manifest.rs lines 39–56): visit the
directories matched by one member pattern. -/
def members_add (w : World) : List RPath → MemberMap → Except Error MemberMap
  | [], acc => .ok acc
  | manifest_dir :: rest, acc =>
    let manifest_path := manifest_dir.joinC "Cargo.toml"
    match w.manifests manifest_path with
    | none => .error (.toml manifest_path)
    | some manifest =>
      if manifest.workspace.isSome then
        .error (.unexpectedWorkspace manifest_path)
      else if manifest.package.isNone then
        .error (.noPackageInManifest manifest_path)
      else
        members_add w rest (pinsert acc manifest_dir (manifest_path, manifest))

/-- Outer loop of `Manifest::members`: expand every member pattern below the
workspace root. -/
def members_patterns (w : World) (root : RPath) : List String → MemberMap → Except Error MemberMap
  | [], acc => .ok acc
  | pat :: rest, acc =>
    match members_add w (w.glob (root.join (RPath.ofString pat))) acc with
    | .error e => .error e
    | .ok acc2 => members_patterns w root rest acc2

/-- `Manifest::members` (src/manifest.rs lines 28–60). -/
def Manifest.members (m : Manifest) (w : World) (workspace_root : RPath) : Except Error MemberMap :=
  match m.workspace with
  | none => .error .manifestNotAWorkspace
  | some ws =>
    match canonicalize w workspace_root with
    | .error e => .error e
    | .ok root => members_patterns w root ws.members []

/-- `Manifest::map_nonvirtual_package` (src/manifest.rs lines 64–86). -/
def Manifest.map_nonvirtual_package (m : Manifest) (manifest_path : RPath)
    (name : Option String) : Except Error (RPath × Manifest) :=
  if m.workspace.isSome then .error (.unexpectedWorkspace manifest_path)
  else
    match m.package with
    | some package =>
      match name with
      | some n =>
        if package.name = n then .ok (manifest_path, m)
        else .error (.packageNotFound manifest_path n)
      | none => .ok (manifest_path, m)
    | none => .error (.noPackageInManifest manifest_path)

/-- Does this member-map entry's manifest declare a package named `name`?
(The source `unwrap`s the package, which `members` guarantees present.) -/
def memberNameIs (e : RPath × (RPath × Manifest)) (name : String) : Bool :=
  match e.2.2.package with
  | some p => decide (p.name = name)
  | none => false

/-- The member-search loop of `find_package_manifest_in_workspace`
(src/utils.rs lines 67–79). -/
def find_member_by_name (ms : MemberMap) (workspace_manifest_path : RPath)
    (name : String) : Except Error (RPath × Manifest) :=
  match ms.find? (fun e => memberNameIs e name) with
  | some e => .ok e.2
  | none => .error (.packageNotFound workspace_manifest_path name)

/-- `utils::find_package_manifest_in_workspace` (src/utils.rs lines 35–89).
The member-search loop (lines 68–74) iterates the `HashMap` returned by
`members()`, whose iteration order is unspecified and randomly seeded per
map instance; `sigMem` is that order for this call, a permutation of the
entries.  The `contains_key` membership test (line 46) queries the map and
is order-insensitive, so it uses the entries directly. -/
def find_package_manifest_in_workspace (w : World) (sigMem : MemberMap → MemberMap)
    (workspace : RPath × Manifest) (potential : RPath × Manifest)
    (package_name : Option String) : Except Error (RPath × Manifest) :=
  let potential_manifest_dir := potential.1.parent
  let workspace_manifest_dir := workspace.1.parent
  match workspace.2.members w workspace_manifest_dir with
  | .error e => .error e
  | .ok workspace_members =>
    if workspace.1 ≠ potential.1 ∧ plookup workspace_members potential_manifest_dir = none then
      .error (.manifestNotInWorkspace potential.1 workspace.1)
    else
      match package_name with
      | some name =>
        match workspace.2.package with
        | some package =>
          if package.name = name then .ok workspace
          else find_member_by_name (sigMem workspace_members) workspace.1 name
        | none => find_member_by_name (sigMem workspace_members) workspace.1 name
      | none =>
        if potential.2.package.isNone then .error (.noPackageInManifest potential.1)
        else .ok potential

/-! ## Locating `.cargo/config.toml` -/

/-- `LocalizedConfig::find_cargo_config_parent` (src/config.rs lines 79–87). -/
def find_cargo_config_parent (w : World) (workspace : RPath) : Except Error (Option RPath) :=
  match w.canonicalize workspace with
  | none => .error (.io workspace)
  | some ws =>
    .ok (ws.ancestors.find?
      (fun dir => w.fileExists (dir.join (RPath.ofString ".cargo/config.toml"))))

/-- `LocalizedConfig::find_cargo_config_for_workspace` (src/config.rs lines
90–95), inlining `LocalizedConfig::new` (lines 70–75). -/
def find_cargo_config_for_workspace (w : World) (workspace : RPath) :
    Except Error (Option LocalizedConfig) :=
  match find_cargo_config_parent w workspace with
  | .error e => .error e
  | .ok none => .ok none
  | .ok (some dir) =>
    let cfgPath := dir.join (RPath.ofString ".cargo/config.toml")
    match w.configs cfgPath with
    | some cfg => .ok (some ⟨cfg, dir⟩)
    | none => .error (.toml cfgPath)

/-! ## Artifact discovery (`Subcommand::new`, src/subcommand.rs lines 118–252) -/

/-- The per-kind artifact `HashMap<String, Artifact>`, in insertion order. -/
abbrev ArtifactMap := List (String × Artifact)

/-- `src/main.rs` (src/subcommand.rs line 120). -/
def main_bin_path : RPath := RPath.ofString "src/main.rs"

/-- `src/lib.rs` (src/subcommand.rs line 121). -/
def main_lib_path : RPath := RPath.ofString "src/lib.rs"

/-- `find_main_file` (src/subcommand.rs lines 126–132): `<dir>/<name>.rs`,
else `<dir>/<name>/main.rs`. -/
def find_main_file (w : World) (dir : RPath) (name : String) : Option RPath :=
  let alt_path := dir.join (RPath.ofString (name ++ ".rs"))
  if w.fileExists alt_path then some alt_path
  else
    let alt_path := (dir.join (RPath.ofString name)).join (RPath.ofString "main.rs")
    if w.fileExists alt_path then some alt_path else none

/-- The explicit-declaration loops of `Subcommand::new` (src/subcommand.rs
lines 135–153 for binaries, 156–174 for examples), generic over the kind:
resolve each declared target's path (explicit, else by convention in
`default_dir`), failing with `notFound` when neither exists and with `dup`
when the name was already inserted. -/
def add_declared (w : World) (default_dir : RPath) (ty : ArtifactType)
    (notFound dup : String → Error) : List TargetDecl → ArtifactMap → Except Error ArtifactMap
  | [], acc => .ok acc
  | d :: rest, acc =>
    match d.path.orElse (fun _ => find_main_file w default_dir d.name) with
    | none => .error (notFound d.name)
    | some path =>
      if (alookup acc d.name).isSome then .error (dup d.name)
      else add_declared w default_dir ty notFound dup rest (acc ++ [(d.name, ⟨d.name, path, ty⟩)])

/-- The name of a discovered artifact (src/subcommand.rs lines 189–190):
the given name, else the file stem of the path. -/
def discovered_name (name : Option String) (path : RPath) : String :=
  match name with
  | some n => n
  | none => fileStem (path.fileName.getD "")

/-- `insert_if_unconfigured` (src/subcommand.rs lines 177–198): skip when the
file path is already claimed by any artifact, derive the name from the file
stem when not given, and only insert when the name is still free. -/
def insert_if_unconfigured (name : Option String) (path : RPath) (ty : ArtifactType)
    (artifacts : ArtifactMap) : ArtifactMap :=
  if artifacts.any (fun e => decide (e.2.path = path)) then artifacts
  else
    let n := discovered_name name path
    if (alookup artifacts n).isSome then artifacts
    else artifacts ++ [(n, ⟨n, path, ty⟩)]

/-- The binary half of artifact discovery in `Subcommand::new`
(src/subcommand.rs lines 134–153 and 200–221): declared binaries, then — when
`autobins` — the special-cased `src/main.rs` named after the package and the
files of `src/bin`. -/
def collect_bin_artifacts (w : World) (root_dir : RPath) (package : String)
    (m : Manifest) : Except Error ArtifactMap :=
  match add_declared w (root_dir.join (RPath.ofString "src/bin")) .bin
      Error.binNotFound Error.duplicateBin m.bins [] with
  | .error e => .error e
  | .ok declared =>
    if m.package.all (fun p => p.autobins) then
      let withMain :=
        if w.fileExists (root_dir.join main_bin_path) then
          insert_if_unconfigured (some package) main_bin_path .bin declared
        else declared
      match list_rust_files w ((root_dir.joinC "src").joinC "bin") with
      | .error e => .error e
      | .ok files =>
        .ok (files.foldl
          (fun acc file => insert_if_unconfigured none (RPath.relativeTo root_dir file) .bin acc)
          withMain)
    else .ok declared

/-- The example half of artifact discovery in `Subcommand::new`
(src/subcommand.rs lines 156–174 and 223–234). -/
def collect_example_artifacts (w : World) (root_dir : RPath)
    (m : Manifest) : Except Error ArtifactMap :=
  match add_declared w (root_dir.join (RPath.ofString "examples")) .example
      Error.exampleNotFound Error.duplicateExample m.examples [] with
  | .error e => .error e
  | .ok declared =>
    if m.package.all (fun p => p.autoexamples) then
      match list_rust_files w (root_dir.join (RPath.ofString "examples")) with
      | .error e => .error e
      | .ok files =>
        .ok (files.foldl
          (fun acc file => insert_if_unconfigured none (RPath.relativeTo root_dir file) .example acc)
          declared)
    else .ok declared

/-- The library artifact of `Subcommand::new` (src/subcommand.rs lines
236–252): a declared `[lib]` is used with defaults filled in and no existence
check; otherwise `src/lib.rs` is auto-detected only when it exists. -/
def mk_lib_artifact (w : World) (root_dir : RPath) (package : String)
    (lib : Option Lib) : Option Artifact :=
  match lib with
  | some l => some ⟨l.name.getD package, l.path.getD main_lib_path, .lib⟩
  | none =>
    if w.fileExists (root_dir.join main_lib_path) then
      some ⟨package, main_lib_path, .lib⟩
    else none

/-! ## `src/args.rs` -/

/-- `Args` (src/args.rs lines 9–64). -/
structure Args where
  quiet : Bool
  package : List String
  workspace : Bool
  exclude : List String
  lib : Bool
  bin : List String
  bins : Bool
  «example» : List String
  examples : Bool
  release : Bool
  profile : Option Profile
  features : List String
  all_features : Bool
  no_default_features : Bool
  target : Option String
  target_dir : Option RPath
  manifest_path : Option RPath
deriving DecidableEq, Repr

/-- `Args::profile` the method (src/args.rs lines 123–131); renamed because
the field of the same name exists. -/
def Args.selected_profile (a : Args) : Profile :=
  match a.profile with
  | some p => p
  | none => if a.release then .release else .dev

/-- Modelled from the spec: `Args::specific_target_selected` is called by
`Subcommand::new` (src/subcommand.rs line 257) but its definition is not
among the provided sources.  Per the spec (§4.4, step 4), a specific-target
filter is requested when any binary/example name or any of the
"all binaries"/"all examples"/"library" flags was given. -/
def Args.specific_target_selected (a : Args) : Bool :=
  a.lib || !a.bin.isEmpty || a.bins || !a.«example».isEmpty || a.examples

/-! ## Output-root precedence (src/subcommand.rs lines 92–116) -/

/-- The `target_dir` computation of `Subcommand::new` (src/subcommand.rs
lines 92–116): explicit `--target-dir`, else `CARGO_BUILD_TARGET_DIR`, else
`CARGO_TARGET_DIR` — a relative result made absolute against the current
directory — else `<workspace root | manifest dir>/<settings target-dir or
"target">`. -/
def compute_target_dir (args_target_dir : Option RPath) (env : String → Option String)
    (cwd : RPath) (workspace_manifest_path : Option RPath) (manifest_path : RPath)
    (config : Option Config) : RPath :=
  let chosen : Option RPath :=
    (args_target_dir.orElse (fun _ =>
      ((env "CARGO_BUILD_TARGET_DIR").orElse (fun _ => env "CARGO_TARGET_DIR")).map
        RPath.ofString)).map
      (fun td => if td.is_relative then cwd.join td else td)
  match chosen with
  | some target_dir => target_dir
  | none =>
    ((workspace_manifest_path.getD manifest_path).parent).join
      (RPath.ofString (get_target_dir_name config))

/-! ## Propagating `[env]` into the process environment -/

/-- Loop of `LocalizedConfig::set_env_vars`: resolve each `[env]` key with
`resolve_env` and set it in the process environment; any resolution error
aborts. -/
def set_env_vars_go (lc : LocalizedConfig) (canonicalize : RPath → Option RPath) :
    List (String × EnvOption) → (String → Option String) → Option (String → Option String)
  | [], env => some env
  | (k, _) :: rest, env =>
    match lc.resolve_env canonicalize env k with
    | .ok v => set_env_vars_go lc canonicalize rest (fun k2 => if k2 = k then some v else env k2)
    | .error _ => none

/-- Modelled from the spec: `LocalizedConfig::set_env_vars` is called by
`Subcommand::new` (src/subcommand.rs line 87) but its definition is not among
the provided sources.  Per the spec (§4.3), it eagerly propagates every
`[env]` entry to the process environment using the `resolve_env` precedence;
the caller unwraps, so a resolution failure is a panic (`none`). -/
def LocalizedConfig.set_env_vars (lc : LocalizedConfig)
    (canonicalize : RPath → Option RPath) (env : String → Option String) :
    Option (String → Option String) :=
  set_env_vars_go lc canonicalize (lc.config.env.getD []) env

/-! ## `Subcommand` (src/subcommand.rs) -/

/-- `Subcommand` (src/subcommand.rs lines 11–24), with the two artifact
`Vec`s as produced by `HashMap::into_values`. -/
structure Subcommand where
  args : Args
  package : String
  workspace_manifest : Option RPath
  manifest : RPath
  target_dir : RPath
  host_triple : String
  profile : Profile
  lib_artifact : Option Artifact
  bin_artifacts : List Artifact
  example_artifacts : List Artifact
  config : Option LocalizedConfig
deriving DecidableEq, Repr

/-- `Subcommand::build_dir` (src/subcommand.rs lines 337–345);
`dunce::simplified` is the identity on the modelled (Unix-like) platform. -/
def Subcommand.build_dir (s : Subcommand) (target : Option String) : RPath :=
  let target_dir := s.target_dir
  let arch_dir := match target with
    | some t => target_dir.join (RPath.ofString t)
    | none => target_dir
  arch_dir.join (RPath.ofString s.profile.as_ref)

/-- `Subcommand::artifact` (src/subcommand.rs lines 347–358); `none` models
the `panic!` of `Artifact::file_name` on an incompatible pair. -/
def Subcommand.artifact (s : Subcommand) (artifact : Artifact) (target : Option String)
    (crate_type : CrateType) : Option RPath :=
  let triple := target.getD s.host_triple
  (artifact.file_name crate_type triple).map
    (fun file_name => ((s.build_dir target).join artifact.build_dir).join (RPath.ofString file_name))

/-- The result of `Subcommand::new` before `HashMap::into_values` turns the
two artifact maps into vectors. -/
structure SubcommandCore where
  args : Args
  package : String
  workspace_manifest : Option RPath
  manifest : RPath
  target_dir : RPath
  host_triple : String
  profile : Profile
  lib_artifact : Option Artifact
  bin_map : ArtifactMap
  example_map : ArtifactMap
  config : Option LocalizedConfig
deriving DecidableEq, Repr

/-- Stage one of `Subcommand::new` (src/subcommand.rs lines 27–76): the
unsupported-flags assertions, `--manifest-path` validation, the two ancestor
walks, and package selection.  `sigMem` is this run's iteration order of the
workspace-member `HashMap` inside `find_package_manifest_in_workspace`
(randomly seeded per map instance in the source).  Returns the selected
(manifest path, manifest) pair together with the workspace manifest; the
outer `Option` is `none` when an assertion (lines 29–41) panics. -/
def subcommand_new_pre (w : World) (args : Args) (sigMem : MemberMap → MemberMap) :
    Option (Except Error ((RPath × Manifest) × Option (RPath × Manifest))) :=
  if 2 ≤ args.package.length then none
  else if args.workspace then none
  else if !args.exclude.isEmpty then none
  else
    let package_filter := args.package.head?
    let manifest_path_v : Except Error (Option RPath) :=
      match args.manifest_path with
      | none => .ok none
      | some path =>
        if path.fileName ≠ some "Cargo.toml" ∨ w.fileExists path = false then
          .error .manifestPathNotFound
        else .ok (some path)
    match manifest_path_v with
    | .error e => some (.error e)
    | .ok manifest_path0 =>
      let search_path_e : Except Error RPath :=
        match manifest_path0 with
        | some mp => canonicalize w mp.parent
        | none => .ok w.cwd
      match search_path_e with
      | .error e => some (.error e)
      | .ok search_path =>
        match find_manifest w search_path with
        | .error e => some (.error e)
        | .ok potential_manifest =>
          match find_workspace w search_path with
          | .error e => some (.error e)
          | .ok workspace_manifest =>
            let selection : Except Error (RPath × Manifest) :=
              match workspace_manifest with
              | some wm =>
                find_package_manifest_in_workspace w sigMem wm potential_manifest package_filter
              | none =>
                potential_manifest.2.map_nonvirtual_package potential_manifest.1 package_filter
            match selection with
            | .error e => some (.error e)
            | .ok sel => some (.ok (sel, workspace_manifest))

/-- Stage two of `Subcommand::new` (src/subcommand.rs lines 78–288): package
unwrap, config discovery, environment propagation, re-parse, target
directory, artifact discovery, filtering and assembly.  The outer `Option`
is `none` when the source panics: the `unwrap` of a missing `[package]`
(line 79) or of `set_env_vars` (line 87). -/
def subcommand_new_post (w : World) (args : Args) (sel : RPath × Manifest)
    (workspace_manifest : Option (RPath × Manifest)) :
    Option (Except Error SubcommandCore) :=
  match sel with
  | (manifest_path, manifest) =>
              match manifest.package with
              | none => none
              | some pkg =>
                let package := pkg.name
                let root_dir := manifest_path.parent
                match find_cargo_config_for_workspace w root_dir with
                | .error e => some (.error e)
                | .ok config =>
                  let env_opt : Option (String → Option String) :=
                    match config with
                    | some c => c.set_env_vars w.canonicalize w.envv
                    | none => some w.envv
                  match env_opt with
                  | none => none
                  | some env =>
                    match w.manifests manifest_path with
                    | none => some (.error (.toml manifest_path))
                    | some parsed_manifest =>
                      let target_dir := compute_target_dir args.target_dir env w.cwd
                        (workspace_manifest.map (fun x => x.1)) manifest_path
                        (config.map (fun c => c.config))
                      match collect_bin_artifacts w root_dir package parsed_manifest with
                      | .error e => some (.error e)
                      | .ok bin_map0 =>
                        match collect_example_artifacts w root_dir parsed_manifest with
                        | .error e => some (.error e)
                        | .ok example_map0 =>
                          let lib0 := mk_lib_artifact w root_dir package parsed_manifest.lib
                          let specific := args.specific_target_selected
                          let lib_artifact :=
                            if specific ∧ args.lib = false then none else lib0
                          let bin_map :=
                            if specific ∧ args.bins = false then
                              bin_map0.filter (fun e => args.bin.contains e.1)
                            else bin_map0
                          let example_map :=
                            if specific ∧ args.examples = false then
                              example_map0.filter (fun e => args.«example».contains e.1)
                            else example_map0
                          some (.ok
                            ⟨args, package, workspace_manifest.map (fun x => x.1),
                              manifest_path, target_dir, w.host, args.selected_profile,
                              lib_artifact, bin_map, example_map, config⟩)

/-- `Subcommand::new` (src/subcommand.rs lines 27–288) up to, but not
including, `HashMap::into_values`: stage one (selection) followed by stage
two. -/
def subcommand_new_core (w : World) (args : Args) (sigMem : MemberMap → MemberMap) :
    Option (Except Error SubcommandCore) :=
  match subcommand_new_pre w args sigMem with
  | none => none
  | some (.error e) => some (.error e)
  | some (.ok (sel, workspace_manifest)) => subcommand_new_post w args sel workspace_manifest

/-- `HashMap::into_values().collect::<Vec<_>>()` applied to the two artifact
maps (src/subcommand.rs lines 284–285).  The iteration order of a Rust
`HashMap` is unspecified (randomly seeded per map instance), so it is passed
in as a reordering function; `hashOrderOk` below states the one property the
standard library does guarantee. -/
def finalize (sigBin sigEx : ArtifactMap → List Artifact) (c : SubcommandCore) : Subcommand :=
  ⟨c.args, c.package, c.workspace_manifest, c.manifest, c.target_dir, c.host_triple,
    c.profile, c.lib_artifact, sigBin c.bin_map, sigEx c.example_map, c.config⟩

/-- A `HashMap::into_values` order yields exactly the stored values, in some
order. -/
def hashOrderOk (sig : ArtifactMap → List Artifact) : Prop :=
  ∀ m : ArtifactMap, List.Perm (sig m) (m.map Prod.snd)

/-- A `HashMap` iteration order over the member map yields exactly the
stored entries, in some order. -/
def memOrderOk (sig : MemberMap → MemberMap) : Prop :=
  ∀ m : MemberMap, List.Perm (sig m) m

/-- `Subcommand::new` (src/subcommand.rs lines 27–288).  `sigMem` is this
run's iteration order of the workspace-member map, `sigBin`/`sigEx` this
run's `into_values` orders of the two artifact maps. -/
def subcommand_new (w : World) (args : Args) (sigMem : MemberMap → MemberMap)
    (sigBin sigEx : ArtifactMap → List Artifact) :
    Option (Except Error Subcommand) :=
  (subcommand_new_core w args sigMem).map (fun r => r.map (finalize sigBin sigEx))

/-! ## Theorems: C1 and C8 (config resolver) -/

/-- Claim C1: for every variable name K, resolving K against a localized
config returns the settings-file `[env]` value whenever the table defines K
with `force = true`; otherwise the process-environment value whenever the
process environment defines K; otherwise the settings-file `[env]` value
whenever the table defines K at all (plain string or `force = false`);
otherwise a not-present error.  (src/config.rs lines 107–127.) -/
theorem claim_C1 (lc : LocalizedConfig) (canon : RPath → Option RPath)
    (procEnv : String → Option String) (key : String) :
    (∀ v, lc.config.env_get key = some (.value v true false) →
      lc.resolve_env canon procEnv key = .ok v) ∧
    (isForced (lc.config.env_get key) = false → ∀ v, procEnv key = some v →
      lc.resolve_env canon procEnv key = .ok v) ∧
    (isForced (lc.config.env_get key) = false → procEnv key = none → ∀ v,
      (lc.config.env_get key = some (.string v) ∨
        lc.config.env_get key = some (.value v false false)) →
      lc.resolve_env canon procEnv key = .ok v) ∧
    (lc.config.env_get key = none → procEnv key = none →
      lc.resolve_env canon procEnv key = .error .var_not_present) := by
  unfold LocalizedConfig.resolve_env
  refine ⟨?_, ?_, ?_, ?_⟩
  · intro v h
    simp [h, EnvOption.resolve_value]
  · intro hforce v hv
    match hc : lc.config.env_get key with
    | none => simp [hc, hv]
    | some (.string s) => simp [hc, hv]
    | some (.value s f r) =>
      cases f with
      | true => rw [hc] at hforce; simp [isForced] at hforce
      | false => simp [hc, hv]
  · intro hforce hnone v hv
    rcases hv with h | h <;> simp [h, hnone, EnvOption.resolve_value]
  · intro hc hnone
    simp [hc, hnone]

def c1_canon : RPath → Option RPath := fun p => some p

def c1_cfg : LocalizedConfig :=
  ⟨⟨none, some [("A", .string "a"), ("F", .value "f" true false),
      ("NF", .value "nf" false false)]⟩, RPath.ofString "/w"⟩

def c1_env : String → Option String :=
  fun k => if k = "A" then some "pa" else if k = "F" then some "pf" else none

/-- Concrete run of the C1 precedence rules: a forced entry beats the process
environment, a process value beats a plain entry, a plain entry is used when
the process environment lacks the key, and an unknown key is not present. -/
theorem claim_C1_witness :
    c1_cfg.resolve_env c1_canon c1_env "F" = .ok "f" ∧
    c1_cfg.resolve_env c1_canon c1_env "A" = .ok "pa" ∧
    c1_cfg.resolve_env c1_canon c1_env "NF" = .ok "nf" ∧
    c1_cfg.resolve_env c1_canon c1_env "Z" = .error .var_not_present := by
  refine ⟨(claim_C1 c1_cfg c1_canon c1_env "F").1 "f" (by decide),
    (claim_C1 c1_cfg c1_canon c1_env "A").2.1 (by decide) "pa" (by decide),
    (claim_C1 c1_cfg c1_canon c1_env "NF").2.2.1 (by decide) (by decide) "nf"
      (Or.inr (by decide)),
    (claim_C1 c1_cfg c1_canon c1_env "Z").2.2.2 (by decide) (by decide)⟩

/-- Claim C8: a `relative = true` entry resolves to its value joined to the
config-owning directory and canonicalized; canonicalization failure is an
error for that variable, never a fallback; entries without `relative = true`
are returned verbatim.  (src/config.rs lines 155–172.) -/
theorem claim_C8 (v : String) (force : Bool) (cp : RPath)
    (canon : RPath → Option RPath) :
    (∀ c, canon (cp.join (RPath.ofString v)) = some c →
      (EnvOption.value v force true).resolve_value cp canon = .ok c.render) ∧
    (canon (cp.join (RPath.ofString v)) = none →
      (EnvOption.value v force true).resolve_value cp canon =
        .error (.io (cp.join (RPath.ofString v)))) ∧
    (EnvOption.string v).resolve_value cp canon = .ok v ∧
    (EnvOption.value v force false).resolve_value cp canon = .ok v := by
  refine ⟨?_, ?_, ?_, ?_⟩
  · intro c hc
    simp [EnvOption.resolve_value, hc]
  · intro hc
    simp [EnvOption.resolve_value, hc]
  · simp [EnvOption.resolve_value]
  · simp [EnvOption.resolve_value]

def c8_canon_ok : RPath → Option RPath := fun p => some p

def c8_canon_fail : RPath → Option RPath := fun _ => none

/-- Concrete run of C8: `relative` resolution canonicalizes `/c/x`, fails
when canonicalization fails, and non-relative entries pass through. -/
theorem claim_C8_witness :
    (EnvOption.value "x" false true).resolve_value (RPath.ofString "/c") c8_canon_ok = .ok "/c/x" ∧
    (EnvOption.value "x" false true).resolve_value (RPath.ofString "/c") c8_canon_fail =
      .error (.io (RPath.ofString "/c/x")) ∧
    (EnvOption.string "x").resolve_value (RPath.ofString "/c") c8_canon_ok = .ok "x" ∧
    (EnvOption.value "x" true false).resolve_value (RPath.ofString "/c") c8_canon_ok = .ok "x" := by
  refine ⟨?_, ?_, ?_, ?_⟩
  · have h := (claim_C8 "x" false (RPath.ofString "/c") c8_canon_ok).1
      (RPath.ofString "/c/x") (by decide)
    rw [h]; decide
  · have h := (claim_C8 "x" false (RPath.ofString "/c") c8_canon_fail).2.1 (by decide)
    rw [h]; decide
  · exact (claim_C8 "x" false (RPath.ofString "/c") c8_canon_ok).2.2.1
  · exact (claim_C8 "x" true (RPath.ofString "/c") c8_canon_ok).2.2.2

/-! ## Theorems: C5 and C6 (build path resolver) -/

/-- Claim C5: the resolved output path is
`<output-root>/<target-triple-if-cross>/<profile-directory>/<artifact-kind-subdirectory>/<file-name>`,
where `dev` maps to directory `debug`, `release` to `release`, any other
profile to its own name verbatim, and the kind subdirectory is `examples` for
examples and empty for libraries and binaries.  (src/subcommand.rs lines
337–358, src/profile.rs lines 33–41, src/artifact.rs lines 22–27.) -/
theorem claim_C5 (s : Subcommand) (art : Artifact) (target : Option String)
    (ct : CrateType) (fn : String)
    (hfn : art.file_name ct (target.getD s.host_triple) = some fn) :
    s.artifact art target ct =
      some ((((match target with
          | some t => s.target_dir.join (RPath.ofString t)
          | none => s.target_dir).join
        (RPath.ofString s.profile.as_ref)).join art.build_dir).join (RPath.ofString fn)) ∧
    Profile.as_ref .dev = "debug" ∧
    Profile.as_ref .release = "release" ∧
    (∀ n, Profile.as_ref (.custom n) = n) ∧
    (art.type = .example → art.build_dir = ⟨false, ["examples"]⟩) ∧
    (art.type = .lib ∨ art.type = .bin → art.build_dir = ⟨false, []⟩) := by
  refine ⟨?_, rfl, rfl, fun n => rfl, ?_, ?_⟩
  · simp [Subcommand.artifact, Subcommand.build_dir, hfn]
  · intro h
    simp [Artifact.build_dir, h]
    decide
  · intro h
    rcases h with h | h <;> simp [Artifact.build_dir, h] <;> decide

def c5_sub : Subcommand :=
  ⟨⟨false, [], false, [], false, [], false, [], false, true, none, [], false, false,
      none, none, none⟩,
    "demo", none, RPath.ofString "/w/Cargo.toml", RPath.ofString "/w/target",
    "x86_64-unknown-linux-gnu", .release, none, [], [], none⟩

def c5_art : Artifact := ⟨"foo", RPath.ofString "examples/foo.rs", .example⟩

/-- Concrete run of C5: an example binary for an explicit triple under the
release profile lands in
`<target-dir>/<triple>/release/examples/<name>`. -/
theorem claim_C5_witness :
    c5_sub.artifact c5_art (some "aarch64-linux-android") .bin =
      some (RPath.ofString "/w/target/aarch64-linux-android/release/examples/foo") := by
  have h := (claim_C5 c5_sub c5_art (some "aarch64-linux-android") .bin "foo" (by decide)).1
  rw [h]; decide

/-- Claim C6: the output file name is, for the executable format, the
artifact name with `.exe` appended on Windows-family triples, `.wasm` on
WebAssembly triples and no suffix otherwise; for the `rlib`, static-library
and dynamic-library formats, `lib` + the name with hyphens replaced by
underscores + the fixed extension.  (src/artifact.rs lines 31–53.) -/
theorem claim_C6 (name : String) (p : RPath) (triple : String) :
    (∀ t, t = ArtifactType.bin ∨ t = ArtifactType.example →
      (strContains triple "windows" = true →
        Artifact.file_name ⟨name, p, t⟩ .bin triple = some (name ++ ".exe")) ∧
      (strContains triple "windows" = false → strContains triple "wasm" = true →
        Artifact.file_name ⟨name, p, t⟩ .bin triple = some (name ++ ".wasm")) ∧
      (strContains triple "windows" = false → strContains triple "wasm" = false →
        Artifact.file_name ⟨name, p, t⟩ .bin triple = some name)) ∧
    (∀ t, t = ArtifactType.lib ∨ t = ArtifactType.example →
      Artifact.file_name ⟨name, p, t⟩ .lib triple = some ("lib" ++ undash name ++ ".rlib") ∧
      Artifact.file_name ⟨name, p, t⟩ .staticlib triple = some ("lib" ++ undash name ++ ".a") ∧
      Artifact.file_name ⟨name, p, t⟩ .cdylib triple = some ("lib" ++ undash name ++ ".so")) := by
  constructor
  · intro t ht
    rcases ht with rfl | rfl <;>
      exact ⟨fun hw => by simp [Artifact.file_name, hw],
        fun hw hm => by simp [Artifact.file_name, hw, hm],
        fun hw hm => by simp [Artifact.file_name, hw, hm]⟩
  · intro t ht
    rcases ht with rfl | rfl <;> exact ⟨rfl, rfl, rfl⟩

/-- Concrete run of C6: a binary named `my-app` gains `.exe` on a Windows
triple, `.wasm` on a wasm triple, nothing on Linux; a library becomes
`libmy_app.rlib`. -/
theorem claim_C6_witness :
    Artifact.file_name ⟨"my-app", RPath.ofString "src/main.rs", .bin⟩ .bin
      "x86_64-pc-windows-msvc" = some "my-app.exe" ∧
    Artifact.file_name ⟨"my-app", RPath.ofString "src/main.rs", .bin⟩ .bin
      "wasm32-unknown-unknown" = some "my-app.wasm" ∧
    Artifact.file_name ⟨"my-app", RPath.ofString "src/main.rs", .bin⟩ .bin
      "x86_64-unknown-linux-gnu" = some "my-app" ∧
    Artifact.file_name ⟨"my-app", RPath.ofString "src/lib.rs", .lib⟩ .lib
      "x86_64-unknown-linux-gnu" = some "libmy_app.rlib" := by
  refine ⟨((claim_C6 "my-app" (RPath.ofString "src/main.rs") "x86_64-pc-windows-msvc").1
      .bin (Or.inl rfl)).1 (by decide),
    ((claim_C6 "my-app" (RPath.ofString "src/main.rs") "wasm32-unknown-unknown").1
      .bin (Or.inl rfl)).2.1 (by decide) (by decide),
    ((claim_C6 "my-app" (RPath.ofString "src/main.rs") "x86_64-unknown-linux-gnu").1
      .bin (Or.inl rfl)).2.2 (by decide) (by decide),
    ?_⟩
  have h := ((claim_C6 "my-app" (RPath.ofString "src/lib.rs") "x86_64-unknown-linux-gnu").2
    .lib (Or.inl rfl)).1
  rw [h]; decide

/-! ## Theorems: C7 (output-root precedence) -/

/-- `get_target_dir_name` in terms of the optional settings value. -/
theorem get_target_dir_name_eq_getD (cfg : Option Config) :
    get_target_dir_name cfg = ((cfg.bind Config.build).bind Build.target_dir).getD "target" := by
  cases cfg with
  | none => rfl
  | some c =>
    cases hb : c.build with
    | none => simp [get_target_dir_name, hb]
    | some b =>
      cases ht : b.target_dir with
      | none => simp [get_target_dir_name, hb, ht]
      | some t => simp [get_target_dir_name, hb, ht]

/-- Claim C7: the output root is chosen by the precedence explicit caller
override > `CARGO_BUILD_TARGET_DIR` > `CARGO_TARGET_DIR` > settings-file
`build.target-dir` > the fixed name `target`; a relative explicit override is
made absolute against the current working directory.  (src/subcommand.rs
lines 92–116, src/utils.rs lines 125–134.) -/
theorem claim_C7 (atd : Option RPath) (env : String → Option String) (cwd : RPath)
    (wsp : Option RPath) (mp : RPath) (cfg : Option Config) :
    (∀ td, atd = some td → td.abs = true →
      compute_target_dir atd env cwd wsp mp cfg = td) ∧
    (∀ td, atd = some td → td.abs = false →
      compute_target_dir atd env cwd wsp mp cfg = cwd.join td) ∧
    (atd = none → ∀ s, env "CARGO_BUILD_TARGET_DIR" = some s →
      compute_target_dir atd env cwd wsp mp cfg =
        (if (RPath.ofString s).is_relative then cwd.join (RPath.ofString s)
          else RPath.ofString s)) ∧
    (atd = none → env "CARGO_BUILD_TARGET_DIR" = none →
      ∀ s, env "CARGO_TARGET_DIR" = some s →
      compute_target_dir atd env cwd wsp mp cfg =
        (if (RPath.ofString s).is_relative then cwd.join (RPath.ofString s)
          else RPath.ofString s)) ∧
    (atd = none → env "CARGO_BUILD_TARGET_DIR" = none → env "CARGO_TARGET_DIR" = none →
      ∀ d, (cfg.bind Config.build).bind Build.target_dir = some d →
      compute_target_dir atd env cwd wsp mp cfg =
        ((wsp.getD mp).parent).join (RPath.ofString d)) ∧
    (atd = none → env "CARGO_BUILD_TARGET_DIR" = none → env "CARGO_TARGET_DIR" = none →
      (cfg.bind Config.build).bind Build.target_dir = none →
      compute_target_dir atd env cwd wsp mp cfg =
        ((wsp.getD mp).parent).join (RPath.ofString "target")) := by
  refine ⟨?_, ?_, ?_, ?_, ?_, ?_⟩
  · intro td h habs
    simp [compute_target_dir, h, RPath.is_relative, habs]
  · intro td h habs
    simp [compute_target_dir, h, RPath.is_relative, habs]
  · intro h s hs
    simp [compute_target_dir, h, hs, Option.orElse]
  · intro h h1 s hs
    simp [compute_target_dir, h, h1, hs, Option.orElse]
  · intro h h1 h2 d hd
    simp [compute_target_dir, h, h1, h2, Option.orElse,
      get_target_dir_name_eq_getD, hd]
  · intro h h1 h2 hd
    simp [compute_target_dir, h, h1, h2, Option.orElse,
      get_target_dir_name_eq_getD, hd]

def c7_env : String → Option String :=
  fun k => if k = "CARGO_TARGET_DIR" then some "envtarget" else none

/-- Concrete runs of C7: a relative explicit override is absolutized against
the current directory and beats `CARGO_TARGET_DIR`; without an override the
environment value wins over the settings value; without either, the settings
value `custom` is used under the workspace root. -/
theorem claim_C7_witness :
    compute_target_dir (some (RPath.ofString "out")) c7_env (RPath.ofString "/cwd")
      none (RPath.ofString "/w/Cargo.toml") none = RPath.ofString "/cwd/out" ∧
    compute_target_dir none c7_env (RPath.ofString "/cwd")
      none (RPath.ofString "/w/Cargo.toml") (some ⟨some ⟨some "custom"⟩, none⟩) =
      RPath.ofString "/cwd/envtarget" ∧
    compute_target_dir none (fun _ => none) (RPath.ofString "/cwd")
      none (RPath.ofString "/w/Cargo.toml") (some ⟨some ⟨some "custom"⟩, none⟩) =
      RPath.ofString "/w/custom" := by
  refine ⟨?_, ?_, ?_⟩
  · have h := (claim_C7 (some (RPath.ofString "out")) c7_env (RPath.ofString "/cwd")
      none (RPath.ofString "/w/Cargo.toml") none).2.1 (RPath.ofString "out") rfl (by decide)
    rw [h]; decide
  · have h := (claim_C7 none c7_env (RPath.ofString "/cwd")
      none (RPath.ofString "/w/Cargo.toml") (some ⟨some ⟨some "custom"⟩, none⟩)).2.2.2.1
      rfl (by decide) "envtarget" (by decide)
    rw [h]; decide
  · have h := (claim_C7 none (fun _ => none) (RPath.ofString "/cwd")
      none (RPath.ofString "/w/Cargo.toml") (some ⟨some ⟨some "custom"⟩, none⟩)).2.2.2.2.1
      rfl rfl rfl "custom" (by decide)
    rw [h]; decide

/-! ## Theorems: C10 (library artifact) -/

/-- Claim C10: an explicit `[lib]` declaration always yields a library
artifact — name defaulting to the package name, path to `src/lib.rs` — with
no existence check of its source file; without a declaration, a library
artifact is produced exactly when `src/lib.rs` exists.  (src/subcommand.rs
lines 236–252.) -/
theorem claim_C10 (w : World) (root : RPath) (package : String) :
    (∀ l, mk_lib_artifact w root package (some l) =
      some ⟨l.name.getD package, l.path.getD main_lib_path, .lib⟩) ∧
    mk_lib_artifact w root package none =
      (if w.fileExists (root.join main_lib_path) then
        some ⟨package, main_lib_path, .lib⟩
      else none) := by
  exact ⟨fun l => rfl, rfl⟩

/-! ## Theorems: C3 and C4 (workspace membership and package selection) -/

/-- Claim C3: when a workspace root is found whose path differs from the
potential manifest's path, and the potential manifest's directory is not
among the expanded workspace member directories, resolution fails with a
manifest-not-in-workspace error carrying both paths and never proceeds to
package selection.  (src/utils.rs lines 40–52.) -/
theorem claim_C3 (w : World) (sigMem : MemberMap → MemberMap) (wmp pmp : RPath)
    (wm pm : Manifest) (pkg : Option String) (mmap : MemberMap)
    (hm : wm.members w wmp.parent = .ok mmap)
    (hne : wmp ≠ pmp)
    (hmem : plookup mmap pmp.parent = none) :
    find_package_manifest_in_workspace w sigMem (wmp, wm) (pmp, pm) pkg =
      .error (.manifestNotInWorkspace pmp wmp) := by
  simp only [find_package_manifest_in_workspace, hm]
  rw [if_pos ⟨hne, hmem⟩]

def c3_wsm : Manifest := ⟨some ⟨[], ["m"]⟩, none, none, [], []⟩

def c3_mm : Manifest := ⟨none, some ⟨"bar", true, true⟩, none, [], []⟩

def c3_pm : Manifest := ⟨none, some ⟨"other", true, true⟩, none, [], []⟩

def c3_w : World := ⟨
  fun _ => false,
  fun _ => false,
  fun _ => [],
  fun p =>
    if p = RPath.ofString "/ws/Cargo.toml" then some c3_wsm
    else if p = RPath.ofString "/ws/m/Cargo.toml" then some c3_mm
    else if p = RPath.ofString "/ws/other/Cargo.toml" then some c3_pm
    else none,
  fun _ => none,
  fun p => some p,
  fun p => if p = RPath.ofString "/ws/m" then [RPath.ofString "/ws/m"] else [],
  fun _ => none,
  RPath.ofString "/ws/other",
  "x86_64-unknown-linux-gnu"⟩

/-- Concrete run of C3: a workspace at `/ws` whose only member is `/ws/m`
rejects the potential manifest `/ws/other/Cargo.toml` with the
manifest-not-in-workspace error. -/
theorem claim_C3_witness :
    find_package_manifest_in_workspace c3_w (fun m => m)
      (RPath.ofString "/ws/Cargo.toml", c3_wsm)
      (RPath.ofString "/ws/other/Cargo.toml", c3_pm) (some "bar") =
      .error (.manifestNotInWorkspace (RPath.ofString "/ws/other/Cargo.toml")
        (RPath.ofString "/ws/Cargo.toml")) :=
  claim_C3 c3_w (fun m => m) (RPath.ofString "/ws/Cargo.toml")
    (RPath.ofString "/ws/other/Cargo.toml") c3_wsm c3_pm (some "bar")
    [(RPath.ofString "/ws/m", (RPath.ofString "/ws/m/Cargo.toml", c3_mm))]
    (by decide) (by decide) (by decide)

/-- A successful member search returns the first member whose package is
named `name`. -/
theorem find_member_by_name_of_exists (ms : MemberMap) (wmp : RPath) (name : String)
    (hex : ∃ e ∈ ms, memberNameIs e name = true) :
    ∃ e ∈ ms, memberNameIs e name = true ∧
      find_member_by_name ms wmp name = .ok e.2 := by
  have hsome : (ms.find? (fun e => memberNameIs e name)).isSome := by
    rw [List.find?_isSome]
    obtain ⟨e, he, hp⟩ := hex
    exact ⟨e, he, hp⟩
  obtain ⟨e, he⟩ := Option.isSome_iff_exists.1 hsome
  have hp := List.find?_some he
  exact ⟨e, List.mem_of_find?_eq_some he, hp, by simp [find_member_by_name, he]⟩

/-- A member search over members none of which match fails with
package-not-found. -/
theorem find_member_by_name_of_none (ms : MemberMap) (wmp : RPath) (name : String)
    (hall : ∀ e ∈ ms, memberNameIs e name = false) :
    find_member_by_name ms wmp name = .error (.packageNotFound wmp name) := by
  have hnone : ms.find? (fun e => memberNameIs e name) = none := by
    rw [List.find?_eq_none]
    intro e he
    simp [hall e he]
  simp [find_member_by_name, hnone]

/-- Whatever a member search returns declares a package named `name`. -/
theorem find_member_by_name_ok_name (ms : MemberMap) (wmp : RPath) (name : String)
    (r : RPath × Manifest)
    (h : find_member_by_name ms wmp name = .ok r) :
    ∃ q, r.2.package = some q ∧ q.name = name := by
  unfold find_member_by_name at h
  cases hf : ms.find? (fun e => memberNameIs e name) with
  | none => rw [hf] at h; exact absurd h (by simp)
  | some e =>
    rw [hf] at h
    have hr : e.2 = r := by injection h
    have hp := List.find?_some hf
    cases hq : e.2.2.package with
    | none => rw [memberNameIs, hq] at hp; simp at hp
    | some q =>
      rw [memberNameIs, hq] at hp
      exact ⟨q, by rw [← hr]; exact hq, of_decide_eq_true hp⟩

/-- Claim C4: with a package-name filter, selection returns the workspace
root when its own package name matches; otherwise a member whose declared
package name matches; when neither matches it fails with package-not-found —
and any successful selection names exactly the filtered package.
(src/utils.rs lines 54–80.) -/
theorem claim_C4 (w : World) (sigMem : MemberMap → MemberMap) (wmp pmp : RPath)
    (wm pm : Manifest) (name : String) (mmap : MemberMap)
    (hm : wm.members w wmp.parent = .ok mmap)
    (hpass : ¬(wmp ≠ pmp ∧ plookup mmap pmp.parent = none))
    (hsig : List.Perm (sigMem mmap) mmap) :
    (∀ p, wm.package = some p → p.name = name →
      find_package_manifest_in_workspace w sigMem (wmp, wm) (pmp, pm) (some name) =
        .ok (wmp, wm)) ∧
    ((∀ p, wm.package = some p → p.name ≠ name) →
      (∃ e ∈ mmap, memberNameIs e name = true) →
      ∃ e ∈ mmap, memberNameIs e name = true ∧
        find_package_manifest_in_workspace w sigMem (wmp, wm) (pmp, pm) (some name) =
          .ok e.2) ∧
    ((∀ p, wm.package = some p → p.name ≠ name) →
      (∀ e ∈ mmap, memberNameIs e name = false) →
      find_package_manifest_in_workspace w sigMem (wmp, wm) (pmp, pm) (some name) =
        .error (.packageNotFound wmp name)) ∧
    (∀ rp rm,
      find_package_manifest_in_workspace w sigMem (wmp, wm) (pmp, pm) (some name) =
        .ok (rp, rm) →
      ∃ q, rm.package = some q ∧ q.name = name) := by
  have hsel : find_package_manifest_in_workspace w sigMem (wmp, wm) (pmp, pm) (some name) =
      (match wm.package with
       | some package =>
         if package.name = name then Except.ok (wmp, wm)
         else find_member_by_name (sigMem mmap) wmp name
       | none => find_member_by_name (sigMem mmap) wmp name) := by
    simp only [find_package_manifest_in_workspace, hm]
    rw [if_neg hpass]
  refine ⟨?_, ?_, ?_, ?_⟩
  · intro p hp hname
    rw [hsel, hp]
    simp [hname]
  · intro hroot hex
    have hex' : ∃ e ∈ sigMem mmap, memberNameIs e name = true := by
      obtain ⟨e, he, hp⟩ := hex
      exact ⟨e, hsig.mem_iff.2 he, hp⟩
    obtain ⟨e, he, hp, hfind⟩ := find_member_by_name_of_exists (sigMem mmap) wmp name hex'
    refine ⟨e, hsig.mem_iff.1 he, hp, ?_⟩
    rw [hsel]
    cases hpkg : wm.package with
    | none => exact hfind
    | some p =>
      have := hroot p hpkg
      simp [this, hfind]
  · intro hroot hall
    have hfind := find_member_by_name_of_none (sigMem mmap) wmp name
      (fun e he => hall e (hsig.mem_iff.1 he))
    rw [hsel]
    cases hpkg : wm.package with
    | none => exact hfind
    | some p =>
      have := hroot p hpkg
      simp [this, hfind]
  · intro rp rm h
    rw [hsel] at h
    cases hpkg : wm.package with
    | none =>
      rw [hpkg] at h
      exact find_member_by_name_ok_name (sigMem mmap) wmp name (rp, rm) h
    | some p =>
      rw [hpkg] at h
      by_cases hn : p.name = name
      · simp [hn] at h
        exact ⟨p, by rw [← h.2]; exact hpkg, hn⟩
      · simp [hn] at h
        exact find_member_by_name_ok_name (sigMem mmap) wmp name (rp, rm) h

def c4_wsm : Manifest := ⟨some ⟨[], ["m"]⟩, some ⟨"root", true, true⟩, none, [], []⟩

def c4_mmap : MemberMap :=
  [(RPath.ofString "/ws/m", (RPath.ofString "/ws/m/Cargo.toml", c3_mm))]

def c4_w : World := ⟨
  fun _ => false,
  fun _ => false,
  fun _ => [],
  fun p =>
    if p = RPath.ofString "/ws/Cargo.toml" then some c4_wsm
    else if p = RPath.ofString "/ws/m/Cargo.toml" then some c3_mm
    else none,
  fun _ => none,
  fun p => some p,
  fun p => if p = RPath.ofString "/ws/m" then [RPath.ofString "/ws/m"] else [],
  fun _ => none,
  RPath.ofString "/ws",
  "x86_64-unknown-linux-gnu"⟩

/-- Concrete runs of C4 on a workspace whose root package is `root` with one
member named `bar`: filtering by `root` selects the root, filtering by `bar`
selects the member, filtering by `zzz` fails with package-not-found. -/
theorem claim_C4_witness :
    find_package_manifest_in_workspace c4_w (fun m => m)
      (RPath.ofString "/ws/Cargo.toml", c4_wsm)
      (RPath.ofString "/ws/Cargo.toml", c4_wsm) (some "root") =
      .ok (RPath.ofString "/ws/Cargo.toml", c4_wsm) ∧
    find_package_manifest_in_workspace c4_w (fun m => m)
      (RPath.ofString "/ws/Cargo.toml", c4_wsm)
      (RPath.ofString "/ws/Cargo.toml", c4_wsm) (some "zzz") =
      .error (.packageNotFound (RPath.ofString "/ws/Cargo.toml") "zzz") := by
  constructor
  · exact (claim_C4 c4_w (fun m => m) (RPath.ofString "/ws/Cargo.toml")
      (RPath.ofString "/ws/Cargo.toml") c4_wsm c4_wsm "root" c4_mmap
      (by decide) (by simp) (List.Perm.refl c4_mmap)).1 ⟨"root", true, true⟩ rfl rfl
  · exact (claim_C4 c4_w (fun m => m) (RPath.ofString "/ws/Cargo.toml")
      (RPath.ofString "/ws/Cargo.toml") c4_wsm c4_wsm "zzz" c4_mmap
      (by decide) (by simp) (List.Perm.refl c4_mmap)).2.2.1
      (fun p hp => by injection hp with h; rw [← h]; decide)
      (fun e he => by
        rcases List.mem_singleton.1 he with rfl
        decide)

/-! ## Theorems: C2 (artifact-merge invariants) -/

/-- Lookup in an appended association list: the left list wins. -/
theorem alookup_append {α : Type} (m₁ m₂ : List (String × α)) (k : String) :
    alookup (m₁ ++ m₂) k = (alookup m₁ k).orElse (fun _ => alookup m₂ k) := by
  induction m₁ with
  | nil => simp [alookup, Option.orElse]
  | cons e rest ih => by_cases h : e.1 = k <;> simp [alookup, h, ih, Option.orElse]

/-- A key is found exactly when it occurs among the keys. -/
theorem alookup_isSome_iff {α : Type} (m : List (String × α)) (k : String) :
    (alookup m k).isSome = true ↔ k ∈ m.map Prod.fst := by
  induction m with
  | nil => simp [alookup]
  | cons e rest ih =>
    by_cases h : e.1 = k
    · simp [alookup, h]
    · have h1 : alookup (e :: rest) k = alookup rest k := by simp [alookup, h]
      rw [h1, ih, List.map_cons]
      constructor
      · exact fun hm => List.mem_cons_of_mem _ hm
      · intro hm
        rcases List.mem_cons.1 hm with h' | h'
        · exact absurd h'.symm h
        · exact h'

/-- The well-formedness invariant of the per-kind artifact maps: keys are
pairwise distinct, and every stored artifact carries its key as name and the
map's kind. -/
def wellKeyed (ty : ArtifactType) (m : ArtifactMap) : Prop :=
  (m.map Prod.fst).Nodup ∧ ∀ e ∈ m, e.2.name = e.1 ∧ e.2.type = ty

theorem wellKeyed_nil (ty : ArtifactType) : wellKeyed ty [] := by
  constructor <;> simp

/-- Appending a fresh key preserves the invariant. -/
theorem wellKeyed_append_new (ty : ArtifactType) (m : ArtifactMap) (n : String)
    (p : RPath) (h : wellKeyed ty m) (hnew : alookup m n = none) :
    wellKeyed ty (m ++ [(n, ⟨n, p, ty⟩)]) := by
  have hnotmem : n ∉ m.map Prod.fst := by
    intro hmem
    have := (alookup_isSome_iff m n).2 hmem
    rw [hnew] at this
    cases this
  constructor
  · rw [List.map_append, List.nodup_append]
    refine ⟨h.1, by simp, ?_⟩
    intro a ha hb
    simp only [List.map_cons, List.map_nil, List.mem_singleton] at hb
    exact hnotmem (hb ▸ ha)
  · intro e he
    rcases List.mem_append.1 he with he | he
    · exact h.2 e he
    · rcases List.mem_singleton.1 he with rfl
      exact ⟨rfl, rfl⟩

/-- `insert_if_unconfigured` preserves the invariant. -/
theorem insert_if_unconfigured_wellKeyed (name : Option String) (path : RPath)
    (ty : ArtifactType) (m : ArtifactMap) (h : wellKeyed ty m) :
    wellKeyed ty (insert_if_unconfigured name path ty m) := by
  unfold insert_if_unconfigured
  by_cases h1 : m.any (fun e => decide (e.2.path = path)) = true
  · simpa [h1] using h
  · simp only [Bool.not_eq_true] at h1
    by_cases h2 : (alookup m (discovered_name name path)).isSome = true
    · simpa [h1, h2] using h
    · simp only [Bool.not_eq_true] at h2
      simp only [h1, h2, Bool.false_eq_true, if_false]
      exact wellKeyed_append_new ty m _ path h (Option.not_isSome_iff_eq_none.1 (by simp [h2]))

/-- `insert_if_unconfigured` never changes an existing binding. -/
theorem insert_if_unconfigured_alookup_preserve (name : Option String) (path : RPath)
    (ty : ArtifactType) (m : ArtifactMap) (k : String) (a : Artifact)
    (h : alookup m k = some a) :
    alookup (insert_if_unconfigured name path ty m) k = some a := by
  unfold insert_if_unconfigured
  by_cases h1 : m.any (fun e => decide (e.2.path = path)) = true
  · simpa [h1] using h
  · simp only [Bool.not_eq_true] at h1
    by_cases h2 : (alookup m (discovered_name name path)).isSome = true
    · simpa [h1, h2] using h
    · simp only [Bool.not_eq_true] at h2
      simp only [h1, h2, Bool.false_eq_true, if_false]
      rw [alookup_append, h]
      simp [Option.orElse]

/-- Discovery folds preserve the invariant. -/
theorem foldl_insert_wellKeyed (ty : ArtifactType) (g : RPath → RPath)
    (files : List RPath) (m : ArtifactMap) (h : wellKeyed ty m) :
    wellKeyed ty
      (files.foldl (fun acc file => insert_if_unconfigured none (g file) ty acc) m) := by
  induction files generalizing m with
  | nil => exact h
  | cons f rest ih => exact ih _ (insert_if_unconfigured_wellKeyed none (g f) ty m h)

/-- Discovery folds never change an existing binding. -/
theorem foldl_insert_alookup_preserve (ty : ArtifactType) (g : RPath → RPath)
    (files : List RPath) (m : ArtifactMap) (k : String) (a : Artifact)
    (h : alookup m k = some a) :
    alookup
      (files.foldl (fun acc file => insert_if_unconfigured none (g file) ty acc) m) k =
      some a := by
  induction files generalizing m with
  | nil => exact h
  | cons f rest ih =>
    exact ih _ (insert_if_unconfigured_alookup_preserve none (g f) ty m k a h)

/-- The explicit-declaration loop preserves the invariant. -/
theorem add_declared_wellKeyed (w : World) (dir : RPath) (ty : ArtifactType)
    (nf dup : String → Error) (ds : List TargetDecl) (m m' : ArtifactMap)
    (h : wellKeyed ty m) (hok : add_declared w dir ty nf dup ds m = .ok m') :
    wellKeyed ty m' := by
  induction ds generalizing m with
  | nil =>
    simp only [add_declared] at hok
    injection hok with hok
    exact hok ▸ h
  | cons d rest ih =>
    unfold add_declared at hok
    cases hp : d.path.orElse (fun _ => find_main_file w dir d.name) with
    | none => rw [hp] at hok; exact absurd hok (by simp)
    | some path =>
      rw [hp] at hok
      by_cases h2 : (alookup m d.name).isSome = true
      · simp [h2] at hok
      · simp only [Bool.not_eq_true] at h2
        simp only [h2, Bool.false_eq_true, if_false] at hok
        exact ih _ (wellKeyed_append_new ty m d.name path h
          (Option.not_isSome_iff_eq_none.1 (by simp [h2]))) hok

/-- The explicit-declaration loop never changes an existing binding. -/
theorem add_declared_alookup_preserve (w : World) (dir : RPath) (ty : ArtifactType)
    (nf dup : String → Error) (ds : List TargetDecl) (m m' : ArtifactMap)
    (k : String) (a : Artifact)
    (h : alookup m k = some a) (hok : add_declared w dir ty nf dup ds m = .ok m') :
    alookup m' k = some a := by
  induction ds generalizing m with
  | nil =>
    simp only [add_declared] at hok
    injection hok with hok
    exact hok ▸ h
  | cons d rest ih =>
    unfold add_declared at hok
    cases hp : d.path.orElse (fun _ => find_main_file w dir d.name) with
    | none => rw [hp] at hok; exact absurd hok (by simp)
    | some path =>
      rw [hp] at hok
      by_cases h2 : (alookup m d.name).isSome = true
      · simp [h2] at hok
      · simp only [Bool.not_eq_true] at h2
        simp only [h2, Bool.false_eq_true, if_false] at hok
        refine ih _ ?_ hok
        rw [alookup_append, h]
        simp [Option.orElse]

/-- After a successful explicit-declaration loop, every declaration with an
explicit path is bound, under its name, to exactly the declared path. -/
theorem add_declared_lookup_declared (w : World) (dir : RPath) (ty : ArtifactType)
    (nf dup : String → Error) (ds : List TargetDecl) (m m' : ArtifactMap)
    (hok : add_declared w dir ty nf dup ds m = .ok m')
    (d : TargetDecl) (hd : d ∈ ds) (p : RPath) (hp : d.path = some p) :
    alookup m' d.name = some ⟨d.name, p, ty⟩ := by
  induction ds generalizing m with
  | nil => cases hd
  | cons e rest ih =>
    unfold add_declared at hok
    rcases List.mem_cons.1 hd with rfl | hd'
    · rw [hp] at hok
      simp only [Option.orElse] at hok
      by_cases h2 : (alookup m d.name).isSome = true
      · simp [h2] at hok
      · simp only [Bool.not_eq_true] at h2
        simp only [h2, Bool.false_eq_true, if_false] at hok
        refine add_declared_alookup_preserve w dir ty nf dup rest _ m' d.name _ ?_ hok
        have hnone : alookup m d.name = none :=
          Option.not_isSome_iff_eq_none.1 (by simp [h2])
        rw [alookup_append, hnone]
        simp [Option.orElse, alookup]
    · cases hpe : e.path.orElse (fun _ => find_main_file w dir e.name) with
      | none => rw [hpe] at hok; exact absurd hok (by simp)
      | some pe =>
        rw [hpe] at hok
        by_cases h2 : (alookup m e.name).isSome = true
        · simp [h2] at hok
        · simp only [Bool.not_eq_true] at h2
          simp only [h2, Bool.false_eq_true, if_false] at hok
          exact ih _ hok hd'

/-- `list_rust_files` never fails. -/
theorem list_rust_files_ok (w : World) (dir : RPath) :
    ∃ fs, list_rust_files w dir = .ok fs := by
  unfold list_rust_files
  split <;> exact ⟨_, rfl⟩

/-- The merged binary map of `Subcommand::new` satisfies the invariant. -/
theorem collect_bin_artifacts_wellKeyed (w : World) (root : RPath) (pkg : String)
    (m : Manifest) (bins : ArtifactMap)
    (h : collect_bin_artifacts w root pkg m = .ok bins) : wellKeyed .bin bins := by
  unfold collect_bin_artifacts at h
  cases hd : add_declared w (root.join (RPath.ofString "src/bin")) .bin
      Error.binNotFound Error.duplicateBin m.bins [] with
  | error e => simp only [hd] at h; cases h
  | ok declared =>
    simp only [hd] at h
    have h1 : wellKeyed .bin declared :=
      add_declared_wellKeyed w _ .bin _ _ m.bins [] declared (wellKeyed_nil .bin) hd
    have h2 : wellKeyed .bin
        (if w.fileExists (root.join main_bin_path) then
          insert_if_unconfigured (some pkg) main_bin_path .bin declared
        else declared) := by
      split
      · exact insert_if_unconfigured_wellKeyed _ _ _ _ h1
      · exact h1
    by_cases hauto : m.package.all (fun p => p.autobins) = true
    · rw [if_pos hauto] at h
      obtain ⟨fs, hfs⟩ := list_rust_files_ok w ((root.joinC "src").joinC "bin")
      simp only [hfs] at h
      injection h with h
      rw [← h]
      exact foldl_insert_wellKeyed .bin (RPath.relativeTo root) fs _ h2
    · rw [if_neg hauto] at h
      injection h with h
      exact h ▸ h1

/-- The merged example map of `Subcommand::new` satisfies the invariant. -/
theorem collect_example_artifacts_wellKeyed (w : World) (root : RPath)
    (m : Manifest) (exs : ArtifactMap)
    (h : collect_example_artifacts w root m = .ok exs) : wellKeyed .example exs := by
  unfold collect_example_artifacts at h
  cases hd : add_declared w (root.join (RPath.ofString "examples")) .example
      Error.exampleNotFound Error.duplicateExample m.examples [] with
  | error e => simp only [hd] at h; cases h
  | ok declared =>
    simp only [hd] at h
    have h1 : wellKeyed .example declared :=
      add_declared_wellKeyed w _ .example _ _ m.examples [] declared (wellKeyed_nil .example) hd
    by_cases hauto : m.package.all (fun p => p.autoexamples) = true
    · rw [if_pos hauto] at h
      obtain ⟨fs, hfs⟩ := list_rust_files_ok w (root.join (RPath.ofString "examples"))
      simp only [hfs] at h
      injection h with h
      rw [← h]
      exact foldl_insert_wellKeyed .example (RPath.relativeTo root) fs _ h1
    · rw [if_neg hauto] at h
      injection h with h
      exact h ▸ h1

/-- In the merged binary map, every binary declared with an explicit path is
bound, under its name, to exactly that path: discovery never overrides it. -/
theorem collect_bin_artifacts_declared (w : World) (root : RPath) (pkg : String)
    (m : Manifest) (bins : ArtifactMap)
    (h : collect_bin_artifacts w root pkg m = .ok bins)
    (d : TargetDecl) (hd : d ∈ m.bins) (p : RPath) (hp : d.path = some p) :
    alookup bins d.name = some ⟨d.name, p, .bin⟩ := by
  unfold collect_bin_artifacts at h
  cases hdec : add_declared w (root.join (RPath.ofString "src/bin")) .bin
      Error.binNotFound Error.duplicateBin m.bins [] with
  | error e => simp only [hdec] at h; cases h
  | ok declared =>
    simp only [hdec] at h
    have h1 : alookup declared d.name = some ⟨d.name, p, .bin⟩ :=
      add_declared_lookup_declared w _ .bin _ _ m.bins [] declared hdec d hd p hp
    have h2 : alookup
        (if w.fileExists (root.join main_bin_path) then
          insert_if_unconfigured (some pkg) main_bin_path .bin declared
        else declared) d.name = some ⟨d.name, p, .bin⟩ := by
      split
      · exact insert_if_unconfigured_alookup_preserve _ _ _ _ _ _ h1
      · exact h1
    by_cases hauto : m.package.all (fun p => p.autobins) = true
    · rw [if_pos hauto] at h
      obtain ⟨fs, hfs⟩ := list_rust_files_ok w ((root.joinC "src").joinC "bin")
      simp only [hfs] at h
      injection h with h
      rw [← h]
      exact foldl_insert_alookup_preserve .bin (RPath.relativeTo root) fs _ _ _ h2
    · rw [if_neg hauto] at h
      injection h with h
      exact h ▸ h1

def c2_path : RPath := RPath.ofString "src/a.rs"

def c2_m : Manifest := ⟨none, some ⟨"demo", false, false⟩, none,
  [⟨"a", some c2_path⟩, ⟨"b", some c2_path⟩], []⟩

def c2_w : World := ⟨
  fun _ => false, fun _ => false, fun _ => [],
  fun _ => none, fun _ => none, fun p => some p, fun _ => [],
  fun _ => none, RPath.ofString "/w", "x86_64-unknown-linux-gnu"⟩

/-- Two binaries declared with distinct names but the same explicit source
path are both accepted and land in the merged artifact set: after merging,
two artifacts of the same kind do share a source path, refuting the claim's
path-uniqueness half.  (Only names are checked for duplicates,
src/subcommand.rs lines 142–152.) -/
theorem claim_C2_counterexample :
    collect_bin_artifacts c2_w (RPath.ofString "/w") "demo" c2_m =
      .ok [("a", ⟨"a", c2_path, .bin⟩), ("b", ⟨"b", c2_path, .bin⟩)] ∧
    (Artifact.mk "a" c2_path .bin).path = (Artifact.mk "b" c2_path .bin).path ∧
    (Artifact.mk "a" c2_path .bin).type = (Artifact.mk "b" c2_path .bin).type ∧
    "a" ≠ "b" := by
  refine ⟨by decide, rfl, rfl, by decide⟩

/-- Claim C2 (amended): auto-discovery never overrides an explicitly declared
artifact — a binary declared with an explicit path keeps exactly that path
under its name, which names exactly one artifact — and after merging no two
artifacts of the same kind share a name (same-kind artifacts may share a
source path when both were declared explicitly).  (src/subcommand.rs lines
118–252.) -/
theorem claim_C2_amended (w : World) (root : RPath) (pkg : String) (m : Manifest)
    (bins exs : ArtifactMap)
    (hb : collect_bin_artifacts w root pkg m = .ok bins)
    (he : collect_example_artifacts w root m = .ok exs) :
    ((bins.map Prod.fst).Nodup ∧ ∀ e ∈ bins, e.2.name = e.1 ∧ e.2.type = .bin) ∧
    ((exs.map Prod.fst).Nodup ∧ ∀ e ∈ exs, e.2.name = e.1 ∧ e.2.type = .example) ∧
    (∀ d ∈ m.bins, ∀ p, d.path = some p →
      alookup bins d.name = some ⟨d.name, p, .bin⟩ ∧
      (bins.map Prod.fst).count d.name = 1) := by
  refine ⟨collect_bin_artifacts_wellKeyed w root pkg m bins hb,
    collect_example_artifacts_wellKeyed w root m exs he, ?_⟩
  intro d hd p hp
  have hl := collect_bin_artifacts_declared w root pkg m bins hb d hd p hp
  refine ⟨hl, ?_⟩
  have hk := (collect_bin_artifacts_wellKeyed w root pkg m bins hb).1
  have hmem : d.name ∈ bins.map Prod.fst :=
    (alookup_isSome_iff bins d.name).1 (by rw [hl]; rfl)
  have hle : (bins.map Prod.fst).count d.name ≤ 1 :=
    List.nodup_iff_count_le_one.1 hk d.name
  have hge : 0 < (bins.map Prod.fst).count d.name := List.count_pos_iff.2 hmem
  omega

def c2w_m : Manifest := ⟨none, some ⟨"demo", true, true⟩, none,
  [⟨"foo", some (RPath.ofString "src/bin/custom.rs")⟩], []⟩

def c2w_w : World := ⟨
  fun _ => false,
  fun p => decide (p = RPath.ofString "/w/src/bin"),
  fun p => if p = RPath.ofString "/w/src/bin" then ["custom.rs", "foo.rs"] else [],
  fun _ => none, fun _ => none, fun p => some p, fun _ => [],
  fun _ => none, RPath.ofString "/w", "x86_64-unknown-linux-gnu"⟩

def c2w_art : Artifact := ⟨"foo", RPath.ofString "src/bin/custom.rs", .bin⟩

/-- Concrete run of amended C2, on the claim's own scenario: binary `foo`
declared at `src/bin/custom.rs` while `src/bin/foo.rs` exists on disk —
the merged set binds `foo` to the declared path exactly once. -/
theorem claim_C2_witness :
    alookup [("foo", c2w_art)] "foo" = some c2w_art ∧
    ([("foo", c2w_art)].map (Prod.fst (α := String) (β := Artifact))).count "foo" = 1 := by
  exact (claim_C2_amended c2w_w (RPath.ofString "/w") "demo" c2w_m
    [("foo", c2w_art)] [] (by decide) (by decide)).2.2
    ⟨"foo", some (RPath.ofString "src/bin/custom.rs")⟩ (by decide)
    (RPath.ofString "src/bin/custom.rs") rfl

/-! ## Theorems: C9 (determinism of the full resolution) -/

/-- With no package filter the member-search loop of
`find_package_manifest_in_workspace` is never entered, so the selection does
not depend on the member-map iteration order. -/
theorem find_package_manifest_in_workspace_no_filter (w : World)
    (sm1 sm2 : MemberMap → MemberMap) (workspace potential : RPath × Manifest) :
    find_package_manifest_in_workspace w sm1 workspace potential none =
      find_package_manifest_in_workspace w sm2 workspace potential none := by
  unfold find_package_manifest_in_workspace
  cases hm : workspace.2.members w workspace.1.parent with
  | error e => rfl
  | ok ms => rfl

/-- Without a package filter, stage one of `Subcommand::new` is independent
of the member-map iteration order: the two runs select the same manifest. -/
theorem subcommand_new_pre_no_filter (w : World) (a : Args) (hpkg : a.package = [])
    (sm1 sm2 : MemberMap → MemberMap) :
    subcommand_new_pre w a sm1 = subcommand_new_pre w a sm2 := by
  unfold subcommand_new_pre
  rw [hpkg]
  simp only [List.head?_nil, find_package_manifest_in_workspace_no_filter w sm1 sm2]

/-- Claim C9 (amended): whenever two runs of the full resolution against the
same world and inputs select the same package manifest (their stage-one
results agree) they agree on every field of the result — panic/error
behaviour included — except that the binary-artifact and example-artifact
sequences, produced by `HashMap::into_values` under two independently seeded
iteration orders, are permutations of each other rather than necessarily
equal; and the stage-one results agree automatically whenever no package
filter is given.  (With a filter, the randomly seeded member-map iteration
may select different members when several declare the filtered name — see
this claim's counterexample.) -/
theorem claim_C9_amended (w : World) (a : Args)
    (sm1 sm2 : MemberMap → MemberMap)
    (sb1 se1 sb2 se2 : ArtifactMap → List Artifact)
    (hb1 : hashOrderOk sb1) (he1 : hashOrderOk se1)
    (hb2 : hashOrderOk sb2) (he2 : hashOrderOk se2) :
    (subcommand_new_pre w a sm1 = subcommand_new_pre w a sm2 →
      (subcommand_new w a sm1 sb1 se1 = none ↔ subcommand_new w a sm2 sb2 se2 = none) ∧
      (∀ e, subcommand_new w a sm1 sb1 se1 = some (.error e) ↔
        subcommand_new w a sm2 sb2 se2 = some (.error e)) ∧
      (∀ s1 s2, subcommand_new w a sm1 sb1 se1 = some (.ok s1) →
        subcommand_new w a sm2 sb2 se2 = some (.ok s2) →
        s1.args = s2.args ∧ s1.package = s2.package ∧
        s1.workspace_manifest = s2.workspace_manifest ∧ s1.manifest = s2.manifest ∧
        s1.target_dir = s2.target_dir ∧ s1.host_triple = s2.host_triple ∧
        s1.profile = s2.profile ∧ s1.lib_artifact = s2.lib_artifact ∧
        s1.config = s2.config ∧
        List.Perm s1.bin_artifacts s2.bin_artifacts ∧
        List.Perm s1.example_artifacts s2.example_artifacts)) ∧
    (a.package = [] → subcommand_new_pre w a sm1 = subcommand_new_pre w a sm2) := by
  constructor
  · intro hsel
    have hcore : subcommand_new_core w a sm1 = subcommand_new_core w a sm2 := by
      unfold subcommand_new_core
      rw [hsel]
    unfold subcommand_new
    rw [hcore]
    cases hc : subcommand_new_core w a sm2 with
    | none => simp
    | some r =>
      cases r with
      | error e0 =>
        refine ⟨by simp [Except.map], fun e => by simp [Except.map], ?_⟩
        intro s1 s2 h1 h2
        simp [Except.map] at h1
      | ok c =>
        refine ⟨by simp [Except.map], fun e => by simp [Except.map], ?_⟩
        intro s1 s2 h1 h2
        simp only [Option.map_some', Except.map] at h1 h2
        have hs1 : finalize sb1 se1 c = s1 := by
          injection h1 with h1'
          injection h1' with h1''
        have hs2 : finalize sb2 se2 c = s2 := by
          injection h2 with h2'
          injection h2' with h2''
        rw [← hs1, ← hs2]
        exact ⟨rfl, rfl, rfl, rfl, rfl, rfl, rfl, rfl, rfl,
          (hb1 c.bin_map).trans (hb2 c.bin_map).symm,
          (he1 c.example_map).trans (he2 c.example_map).symm⟩
  · intro hpkg
    exact subcommand_new_pre_no_filter w a hpkg sm1 sm2

def c9_m : Manifest := ⟨none, some ⟨"demo", false, false⟩, none,
  [⟨"a", some (RPath.ofString "src/a.rs")⟩, ⟨"b", some (RPath.ofString "src/b.rs")⟩], []⟩

def c9_w : World := ⟨
  fun p => decide (p = RPath.ofString "/w/Cargo.toml"),
  fun _ => false, fun _ => [],
  fun p => if p = RPath.ofString "/w/Cargo.toml" then some c9_m else none,
  fun _ => none, fun p => some p, fun _ => [],
  fun _ => none, RPath.ofString "/w", "x86_64-unknown-linux-gnu"⟩

def c9_args : Args := ⟨false, [], false, [], false, [], false, [], false, false,
  none, [], false, false, none, none, none⟩

def c9_sid : ArtifactMap → List Artifact := fun m => m.map Prod.snd

def c9_srev : ArtifactMap → List Artifact := fun m => (m.map Prod.snd).reverse

def c9_mid : MemberMap → MemberMap := fun m => m

def c9_mrev : MemberMap → MemberMap := fun m => m.reverse

def c9b_wsm : Manifest := ⟨some ⟨[], ["m1", "m2"]⟩, none, none, [], []⟩

def c9b_m1 : Manifest := ⟨none, some ⟨"dup", false, false⟩, none, [], []⟩

def c9b_m2 : Manifest := ⟨none, some ⟨"dup", false, false⟩, none, [], []⟩

def c9b_w : World := ⟨
  fun p => decide (p = RPath.ofString "/ws/Cargo.toml"),
  fun _ => false, fun _ => [],
  fun p =>
    if p = RPath.ofString "/ws/Cargo.toml" then some c9b_wsm
    else if p = RPath.ofString "/ws/m1/Cargo.toml" then some c9b_m1
    else if p = RPath.ofString "/ws/m2/Cargo.toml" then some c9b_m2
    else none,
  fun _ => none, fun p => some p,
  fun p =>
    if p = RPath.ofString "/ws/m1" then [RPath.ofString "/ws/m1"]
    else if p = RPath.ofString "/ws/m2" then [RPath.ofString "/ws/m2"]
    else [],
  fun _ => none, RPath.ofString "/ws", "x86_64-unknown-linux-gnu"⟩

def c9b_args : Args := ⟨false, ["dup"], false, [], false, [], false, [], false, false,
  none, [], false, false, none, none, none⟩

/-- Two refutations of the original bit-identical claim, each under
legitimate `HashMap` iteration orders (producing exactly the stored
entries/values).  First, two `into_values` orders make the binary-artifact
sequences differ in order.  Second, with a package filter `dup` that two
workspace members both satisfy, two member-map iteration orders make the
runs select different package manifests altogether, so even the amended
field-equality needs the equal-selection proviso. -/
theorem claim_C9_counterexample :
    (hashOrderOk c9_sid ∧ hashOrderOk c9_srev ∧ memOrderOk c9_mid ∧
      subcommand_new c9_w c9_args c9_mid c9_sid c9_sid ≠
        subcommand_new c9_w c9_args c9_mid c9_srev c9_sid) ∧
    (memOrderOk c9_mid ∧ memOrderOk c9_mrev ∧
      subcommand_new c9b_w c9b_args c9_mid c9_sid c9_sid ≠
        subcommand_new c9b_w c9b_args c9_mrev c9_sid c9_sid) := by
  refine ⟨⟨fun m => List.Perm.refl (m.map Prod.snd),
      fun m => (m.map Prod.snd).reverse_perm,
      fun m => List.Perm.refl m, by decide⟩,
    fun m => List.Perm.refl m, fun m => m.reverse_perm, by decide⟩

/-- Concrete application of amended C9: a filterless project run under two
different member orders and two different `into_values` orders; the second
conjunct of the theorem discharges the equal-selection hypothesis of the
first. -/
theorem claim_C9_witness :
    (subcommand_new c9_w c9_args c9_mid c9_sid c9_sid = none ↔
      subcommand_new c9_w c9_args c9_mrev c9_srev c9_srev = none) := by
  have h := claim_C9_amended c9_w c9_args c9_mid c9_mrev c9_sid c9_sid c9_srev c9_srev
    (fun m => List.Perm.refl (m.map Prod.snd)) (fun m => List.Perm.refl (m.map Prod.snd))
    (fun m => (m.map Prod.snd).reverse_perm) (fun m => (m.map Prod.snd).reverse_perm)
  exact (h.1 (h.2 rfl)).1

end CargoSubcommand
